import Mathlib

/-!
Verification of the quota-aware batched BLS API client
(`src/py_files/api_bls.py`, class `BlsApiCall`) against its
natural-language specification.

The Python code is shallowly embedded: the persisted query-count file is a
list of `(count, dayOfMonth)` lines (`[]` = file does not exist, matching
`os.path.exists`), the network is a stream of responses indexed by attempt
number, and exceptions are `Except` values.  Days of month are `Int` so that
the source's literal day arithmetic (`current_query_day - first_query_day`)
is preserved, including its behaviour when the day of month decreases across
a month boundary.
-/

namespace Bls

/-- A line of `outputs/runtime_output/query_count.txt`: `(queryCount, dayOfMonth)`.
The whole file is a list of such lines; `[]` models a missing file. -/
abbrev QueryFile := List (Nat × Int)

/-- `_read_query`: `self.first_query_count, self.first_query_day` come from the
first line of the file.  (Defaults are irrelevant: every caller guards on the
file being present.) -/
def firstEntry (file : QueryFile) : Nat × Int := file.headD (0, 0)

/-- `_read_query`: `self.last_query_count, self.last_query_day` come from the
last line; with a single line the first line is reused (the
`UnboundLocalError` branch of the source). -/
def lastEntry (file : QueryFile) : Nat × Int := file.getLastD (0, 0)

/-- `_create_query_file`: removes the file when it exists and
`current_query_day - self.first_query_day > 0` (note: the source compares the
signed difference with `0`, so a *decrease* of the day of month does not
remove the file), then creates it with the single line `(1, today)` when it
is absent.  Returns the new file contents together with `self.just_created`. -/
def create_query_file (file : QueryFile) (today : Int) : QueryFile × Bool :=
  let file1 := if file ≠ [] ∧ today - (firstEntry file).2 > 0 then [] else file
  if file1 = [] then ([(1, today)], true) else (file1, false)

/-- `_increment_query_count`, run directly after `_create_query_file` as in
`bls_request`: re-reads the file, raises (`.error`) when the file exists, the
last stored count is at least 500 and `current_query_day - first_query_day == 0`,
and otherwise appends `(last_query_count + 1, today)` unless the file was just
created. -/
def increment_query_count (file : QueryFile) (justCreated : Bool) (today : Int) :
    Except Unit QueryFile :=
  if file ≠ [] ∧ (lastEntry file).1 ≥ 500 ∧ today - (firstEntry file).2 = 0 then
    .error ()
  else if !justCreated then
    .ok (file ++ [((lastEntry file).1 + 1, today)])
  else
    .ok file

/-- One ledger step of `bls_request`: `self._create_query_file()` followed by
`self._increment_query_count()`.  `.error ()` is the
"Queries may not exceed 500 within a day." exception; in that case the file is
returned unchanged (the raise happens before any write, and the create phase
cannot have rewritten the file: the quota check requires `today` to equal the
stored first day, which precludes the remove-and-recreate branch). -/
def beforeCall (file : QueryFile) (today : Int) : Except Unit QueryFile :=
  let (file1, justCreated) := create_query_file file today
  increment_query_count file1 justCreated today

/-- The file contents after `k` same-day attempts that started from a missing
file: lines `(1, d), (2, d), …, (k, d)`. -/
def mkFile (k : Nat) (d : Int) : QueryFile :=
  (List.range k).map (fun i => (i + 1, d))

/-- `k` consecutive attempted calls on day `d`, starting from a missing file;
`.error` as soon as one attempt hits the quota. -/
def runCalls : Nat → Int → Except Unit QueryFile
  | 0, _ => .ok []
  | k + 1, d =>
    match runCalls k d with
    | .error e => .error e
    | .ok f => beforeCall f d

theorem mkFile_succ (k : Nat) (d : Int) :
    mkFile (k + 1) d = mkFile k d ++ [(k + 1, d)] := by
  simp [mkFile, List.range_succ]

theorem firstEntry_mkFile (k : Nat) (d : Int) (hk : 1 ≤ k) :
    firstEntry (mkFile k d) = (1, d) := by
  obtain ⟨m, rfl⟩ := Nat.exists_eq_add_of_le hk
  rw [Nat.add_comm 1 m]
  simp [mkFile, firstEntry, List.range_succ_eq_map]

theorem lastEntry_mkFile (k : Nat) (d : Int) (hk : 1 ≤ k) :
    lastEntry (mkFile k d) = (k, d) := by
  obtain ⟨m, rfl⟩ := Nat.exists_eq_add_of_le hk
  rw [Nat.add_comm 1 m, mkFile_succ]
  simp [lastEntry]

theorem mkFile_ne_nil (k : Nat) (d : Int) (hk : 1 ≤ k) : mkFile k d ≠ [] := by
  obtain ⟨m, rfl⟩ := Nat.exists_eq_add_of_le hk
  rw [Nat.add_comm 1 m, mkFile_succ]
  simp

/-- Same-day run of `_create_query_file`: nothing is removed and nothing is
created. -/
theorem create_mkFile (k : Nat) (d : Int) (hk : 1 ≤ k) :
    create_query_file (mkFile k d) d = (mkFile k d, false) := by
  have hne := mkFile_ne_nil k d hk
  have hfst := firstEntry_mkFile k d hk
  simp [create_query_file, hfst, hne]

/-- Reduction of one ledger step on the canonical same-day file. -/
theorem beforeCall_mkFile (k : Nat) (d : Int) (hk : 1 ≤ k) :
    beforeCall (mkFile k d) d =
      if 500 ≤ k then .error () else .ok (mkFile (k + 1) d) := by
  have hne := mkFile_ne_nil k d hk
  have hfst := firstEntry_mkFile k d hk
  have hlst := lastEntry_mkFile k d hk
  rw [beforeCall, create_mkFile k d hk]
  by_cases h5 : 500 ≤ k
  · rw [if_pos h5]
    simp [increment_query_count, hne, hlst, hfst, h5]
  · rw [if_neg h5]
    simp [increment_query_count, hne, hlst, hfst, h5, mkFile_succ]

/-- The first ledger step of a run with no persisted file creates the file
with count 1 and appends nothing (`just_created`). -/
theorem beforeCall_nil (d : Int) : beforeCall [] d = .ok (mkFile 1 d) := rfl

theorem runCalls_eq (k : Nat) (d : Int) (hk : k ≤ 500) :
    runCalls k d = .ok (mkFile k d) := by
  induction k with
  | zero => simp [runCalls, mkFile]
  | succ n ih =>
    have hn : n ≤ 500 := Nat.le_of_succ_le hk
    simp only [runCalls]
    rw [ih hn]
    show beforeCall (mkFile n d) d = .ok (mkFile (n + 1) d)
    cases n with
    | zero => exact beforeCall_nil d
    | succ m =>
      rw [beforeCall_mkFile (m + 1) d (Nat.succ_le_succ (Nat.zero_le m)), if_neg (by omega)]

/-- What one `requests.post` yields: the HTTP status code and, for 200
responses, the `"status"` field of the JSON payload. -/
structure Response where
  statusCode : Nat
  payloadStatus : String
deriving DecidableEq

/-- The exceptions `bls_request` can raise. -/
inductive ReqError where
  /-- `ValueError("Can only take up to 50 seriesID's per query.")` -/
  | seriesLimit
  /-- `ValueError("Can only take in up to 20 years per query.")` -/
  | yearLimit
  /-- `Exception("Queries may not exceed 500 within a day.")` -/
  | quotaExceeded
  /-- `HTTPError(f"HTTP Error: {e.response}")` for a non-retryable status -/
  | httpError (status : Nat)
  /-- `Exception('Response Status from API is not "REQUEST_SUCCEEDED"')` -/
  | apiRejected
  /-- `Exception(f"API Error: {final_error}")` after the retry loop ends -/
  | exhausted (lastError : Nat)
deriving DecidableEq

/-- Is the error one of the two `ValueError` validation failures? -/
def ReqError.isInvalidArgument : ReqError → Bool
  | .seriesLimit => true
  | .yearLimit => true
  | _ => false

/-- The observable outcome of `bls_request`: the returned JSON or raised
exception, the final query-count file, the number of `requests.post` calls
made, and the `time.sleep` durations in order. -/
structure ReqResult where
  result : Except ReqError Response
  file : QueryFile
  attempts : Nat
  sleeps : List Nat

/-- `retry_codes`: 500 INTERNAL_SERVER_ERROR, 502 BAD_GATEWAY,
503 SERVICE_UNAVAILABLE, 504 GATEWAY_TIMEOUT. -/
def retry_codes : List Nat := [500, 502, 503, 504]

/-- The `for attempt in range(1, RETRIES + 1)` loop of `bls_request`.
`remaining` counts loop iterations still allowed, `attempt` is the Python
loop variable, `net : Nat → Response` gives the response to the `attempt`-th
`requests.post`, and `finalError` is the `final_error` local.  Each iteration
runs the ledger step before posting; a quota failure propagates immediately
with no post.  A non-200 status raises `HTTPError`; statuses in `retry_codes`
sleep `2^attempt` seconds and continue, others abort.  A 200 response whose
payload status is not `"REQUEST_SUCCEEDED"` aborts (the bare `raise` is
caught by the `except Exception` clause and re-raised).  When the loop runs
out, `Exception(f"API Error: {final_error}")` is raised. -/
def blsLoop (net : Nat → Response) (today : Int) :
    Nat → Nat → QueryFile → Option Nat → Nat → List Nat → ReqResult
  | 0, _, file, finalError, attempts, sleeps =>
    ⟨.error (.exhausted (finalError.getD 0)), file, attempts, sleeps⟩
  | remaining + 1, attempt, file, _finalError, attempts, sleeps =>
    match beforeCall file today with
    | .error _ => ⟨.error .quotaExceeded, file, attempts, sleeps⟩
    | .ok file1 =>
      let r := net attempt
      if r.statusCode ≠ 200 then
        if r.statusCode ∈ retry_codes then
          blsLoop net today remaining (attempt + 1) file1 (some r.statusCode)
            (attempts + 1) (sleeps ++ [2 ^ attempt])
        else
          ⟨.error (.httpError r.statusCode), file1, attempts + 1, sleeps⟩
      else if r.payloadStatus ≠ "REQUEST_SUCCEEDED" then
        ⟨.error .apiRejected, file1, attempts + 1, sleeps⟩
      else
        ⟨.ok r, file1, attempts + 1, sleeps⟩

/-- `BlsApiCall.bls_request`.  `series` is the seriesID batch, the years are
integers (the source converts its string arguments with `int(...)` to form
`year_range`), `net` is the network, `file` the persisted query-count file
and `today` the current day of month.  The two `ValueError` checks run
before the retry loop, hence before any ledger or network activity. -/
def bls_request (series : List String) (start_year end_year : Int)
    (net : Nat → Response) (file : QueryFile) (today : Int) : ReqResult :=
  if series.length > 50 then ⟨.error .seriesLimit, file, 0, []⟩
  else if end_year - start_year > 20 then ⟨.error .yearLimit, file, 0, []⟩
  else blsLoop net today 3 1 file none 0 []

theorem blsLoop_zero (net : Nat → Response) (today : Int) (attempt : Nat)
    (file : QueryFile) (fe : Option Nat) (attempts : Nat) (sleeps : List Nat) :
    blsLoop net today 0 attempt file fe attempts sleeps =
      ⟨.error (.exhausted (fe.getD 0)), file, attempts, sleeps⟩ := rfl

theorem blsLoop_step_quota (net : Nat → Response) (today : Int) (remaining attempt : Nat)
    (file : QueryFile) (fe : Option Nat) (attempts : Nat) (sleeps : List Nat)
    (hbc : beforeCall file today = .error ()) :
    blsLoop net today (remaining + 1) attempt file fe attempts sleeps =
      ⟨.error .quotaExceeded, file, attempts, sleeps⟩ := by
  simp only [blsLoop, hbc]

theorem blsLoop_step_retry (net : Nat → Response) (today : Int) (remaining attempt : Nat)
    (file file1 : QueryFile) (fe : Option Nat) (attempts : Nat) (sleeps : List Nat) (s : Nat)
    (hbc : beforeCall file today = .ok file1) (hs : (net attempt).statusCode = s)
    (hmem : s ∈ retry_codes) (hne : s ≠ 200) :
    blsLoop net today (remaining + 1) attempt file fe attempts sleeps =
      blsLoop net today remaining (attempt + 1) file1 (some s) (attempts + 1)
        (sleeps ++ [2 ^ attempt]) := by
  simp only [blsLoop, hbc, hs]
  rw [if_pos hne, if_pos hmem]

theorem blsLoop_step_fatal (net : Nat → Response) (today : Int) (remaining attempt : Nat)
    (file file1 : QueryFile) (fe : Option Nat) (attempts : Nat) (sleeps : List Nat) (s : Nat)
    (hbc : beforeCall file today = .ok file1) (hs : (net attempt).statusCode = s)
    (hmem : s ∉ retry_codes) (hne : s ≠ 200) :
    blsLoop net today (remaining + 1) attempt file fe attempts sleeps =
      ⟨.error (.httpError s), file1, attempts + 1, sleeps⟩ := by
  simp only [blsLoop, hbc, hs]
  rw [if_pos hne, if_neg hmem]

theorem blsLoop_step_rejected (net : Nat → Response) (today : Int) (remaining attempt : Nat)
    (file file1 : QueryFile) (fe : Option Nat) (attempts : Nat) (sleeps : List Nat)
    (hbc : beforeCall file today = .ok file1) (hs : (net attempt).statusCode = 200)
    (hp : (net attempt).payloadStatus ≠ "REQUEST_SUCCEEDED") :
    blsLoop net today (remaining + 1) attempt file fe attempts sleeps =
      ⟨.error .apiRejected, file1, attempts + 1, sleeps⟩ := by
  simp only [blsLoop, hbc, hs]
  rw [if_neg (by simp), if_pos hp]

theorem blsLoop_step_success (net : Nat → Response) (today : Int) (remaining attempt : Nat)
    (file file1 : QueryFile) (fe : Option Nat) (attempts : Nat) (sleeps : List Nat)
    (hbc : beforeCall file today = .ok file1) (hs : (net attempt).statusCode = 200)
    (hp : (net attempt).payloadStatus = "REQUEST_SUCCEEDED") :
    blsLoop net today (remaining + 1) attempt file fe attempts sleeps =
      ⟨.ok (net attempt), file1, attempts + 1, sleeps⟩ := by
  simp only [blsLoop, hbc, hs]
  rw [if_neg (by simp), if_neg (by simp [hp])]

theorem bls_request_loop (series : List String) (sy ey : Int) (net : Nat → Response)
    (file : QueryFile) (today : Int) (h1 : series.length ≤ 50) (h2 : ey - sy ≤ 20) :
    bls_request series sy ey net file today = blsLoop net today 3 1 file none 0 [] := by
  rw [bls_request, if_neg (by omega), if_neg (by omega)]

theorem mem_retry_codes_ne_200 {s : Nat} (h : s ∈ retry_codes) : s ≠ 200 := by
  fin_cases h <;> decide

/-- C1: after `k` attempted calls on the same day `d` the persisted count is
`k` (for `k ≤ 500`); when the stored count has reached 500 on the same
day-of-month, a further `bls_request` raises the quota exception before any
network post (`attempts = 0`) and without advancing the stored count. -/
theorem quota_cap (d : Int) (k : Nat) (hk1 : 1 ≤ k) (hk : k ≤ 500) (net : Nat → Response) :
    (runCalls k d = .ok (mkFile k d) ∧ (lastEntry (mkFile k d)).1 = k) ∧
    beforeCall (mkFile 500 d) d = .error () ∧
    bls_request ["S"] 2000 2005 net (mkFile 500 d) d =
      ⟨.error .quotaExceeded, mkFile 500 d, 0, []⟩ := by
  have h500 : beforeCall (mkFile 500 d) d = .error () := by
    rw [beforeCall_mkFile 500 d (by omega), if_pos (by omega)]
  refine ⟨⟨runCalls_eq k d hk, ?_⟩, h500, ?_⟩
  · rw [lastEntry_mkFile k d hk1]
  · rw [bls_request_loop _ _ _ _ _ _ (by norm_num) (by norm_num),
      blsLoop_step_quota _ _ _ _ _ _ _ _ h500]

/-- Witness for C1 at `d = 2`, `k = 3`. -/
theorem quota_cap_witness :
    runCalls 3 2 = .ok (mkFile 3 2) ∧ (lastEntry (mkFile 3 2)).1 = 3 :=
  (quota_cap 2 3 (by decide) (by decide) (fun _ => ⟨200, "REQUEST_SUCCEEDED"⟩)).1

/-- C2: three consecutive responses with retryable statuses (from
`{500, 502, 503, 504}`) give exactly 3 metered attempts with sleeps of
`2^1, 2^2, 2^3` seconds and a terminal `API Error` wrapping the last status;
a first response with any other non-200 status aborts immediately after one
metered attempt with an `HTTP Error`, with no retry and no sleep. -/
theorem retry_then_exhaust_and_fatal (net net2 : Nat → Response) (k : Nat) (d : Int)
    (s1 s2 s3 t : Nat) (hk1 : 1 ≤ k) (hk : k + 3 ≤ 500)
    (h1 : (net 1).statusCode = s1) (h2 : (net 2).statusCode = s2)
    (h3 : (net 3).statusCode = s3)
    (m1 : s1 ∈ retry_codes) (m2 : s2 ∈ retry_codes) (m3 : s3 ∈ retry_codes)
    (ht : (net2 1).statusCode = t) (ht200 : t ≠ 200) (htm : t ∉ retry_codes) :
    bls_request ["S"] 2000 2005 net (mkFile k d) d =
      ⟨.error (.exhausted s3), mkFile (k + 3) d, 3, [2, 4, 8]⟩ ∧
    bls_request ["S"] 2000 2005 net2 (mkFile k d) d =
      ⟨.error (.httpError t), mkFile (k + 1) d, 1, []⟩ := by
  have hb1 : beforeCall (mkFile k d) d = .ok (mkFile (k + 1) d) := by
    rw [beforeCall_mkFile k d hk1, if_neg (by omega)]
  have hb2 : beforeCall (mkFile (k + 1) d) d = .ok (mkFile (k + 2) d) := by
    rw [beforeCall_mkFile (k + 1) d (by omega), if_neg (by omega)]
  have hb3 : beforeCall (mkFile (k + 2) d) d = .ok (mkFile (k + 3) d) := by
    rw [beforeCall_mkFile (k + 2) d (by omega), if_neg (by omega)]
  constructor
  · rw [bls_request_loop _ _ _ _ _ _ (by norm_num) (by norm_num),
      blsLoop_step_retry _ _ _ _ _ _ _ _ _ _ hb1 h1 m1 (mem_retry_codes_ne_200 m1),
      blsLoop_step_retry _ _ _ _ _ _ _ _ _ _ hb2 h2 m2 (mem_retry_codes_ne_200 m2),
      blsLoop_step_retry _ _ _ _ _ _ _ _ _ _ hb3 h3 m3 (mem_retry_codes_ne_200 m3),
      blsLoop_zero]
    norm_num
  · rw [bls_request_loop _ _ _ _ _ _ (by norm_num) (by norm_num),
      blsLoop_step_fatal _ _ _ _ _ _ _ _ _ _ hb1 ht htm ht200]

/-- Witness for C2 at `k = 1`, `d = 7`, all-503 network and an all-400 network. -/
theorem retry_then_exhaust_and_fatal_witness :
    bls_request ["S"] 2000 2005 (fun _ => ⟨503, ""⟩) (mkFile 1 7) 7 =
      ⟨.error (.exhausted 503), mkFile 4 7, 3, [2, 4, 8]⟩ ∧
    bls_request ["S"] 2000 2005 (fun _ => ⟨400, ""⟩) (mkFile 1 7) 7 =
      ⟨.error (.httpError 400), mkFile 2 7, 1, []⟩ :=
  retry_then_exhaust_and_fatal (fun _ => ⟨503, ""⟩) (fun _ => ⟨400, ""⟩) 1 7
    503 503 503 400 (by decide) (by decide) rfl rfl rfl
    (by decide) (by decide) (by decide) rfl (by decide) (by decide)

/-- C3: the code resets the ledger only when the numeric day of month
*increases*.  With stored line `(5, 31)` and current day-of-month `1` (the
next calendar day, across a month boundary) the file is kept and the call
appends count 6 — no reset to 1, and since the stored day differs from
today the 500-cap check cannot fire either.  For an increasing day
(`(5, 2)` then day `3`) the file is removed and recreated with count 1,
as the claim describes. -/
theorem day_rollover_month_boundary :
    beforeCall [(5, 31)] 1 = .ok [(5, 31), (6, 1)] ∧
    beforeCall [(5, 2)] 3 = .ok [(1, 3)] := ⟨rfl, rfl⟩

/-- C4: an HTTP 200 response whose payload status differs from
`"REQUEST_SUCCEEDED"` makes `bls_request` raise the application-rejection
exception on that same attempt: exactly one metered post, no sleep, no
retry. -/
theorem rejected_status_no_retry (net : Nat → Response) (k : Nat) (d : Int) (p : String)
    (hk1 : 1 ≤ k) (hk : k + 1 ≤ 500)
    (hn : net 1 = ⟨200, p⟩) (hp : p ≠ "REQUEST_SUCCEEDED") :
    bls_request ["S"] 2000 2005 net (mkFile k d) d =
      ⟨.error .apiRejected, mkFile (k + 1) d, 1, []⟩ := by
  have hb1 : beforeCall (mkFile k d) d = .ok (mkFile (k + 1) d) := by
    rw [beforeCall_mkFile k d hk1, if_neg (by omega)]
  rw [bls_request_loop _ _ _ _ _ _ (by norm_num) (by norm_num),
    blsLoop_step_rejected _ _ _ _ _ _ _ _ _ hb1 (by rw [hn]) (by rw [hn]; exact hp)]

/-- Witness for C4 at `k = 1`, `d = 7`, payload status `"REQUEST_NOT_PROCESSED"`. -/
theorem rejected_status_no_retry_witness :
    bls_request ["S"] 2000 2005 (fun _ => ⟨200, "REQUEST_NOT_PROCESSED"⟩) (mkFile 1 7) 7 =
      ⟨.error .apiRejected, mkFile 2 7, 1, []⟩ :=
  rejected_status_no_retry (fun _ => ⟨200, "REQUEST_NOT_PROCESSED"⟩) 1 7
    "REQUEST_NOT_PROCESSED" (by decide) (by decide) rfl (by decide)

/-- C5: a batch of more than 50 identifiers raises the series-limit
`ValueError` with no ledger write, no post and no sleep; a year range of
more than 20 years likewise raises an invalid-argument `ValueError` before
any ledger or network activity. -/
theorem validation_before_ledger (series : List String) (sy ey : Int)
    (net : Nat → Response) (file : QueryFile) (d : Int) :
    (series.length > 50 →
      bls_request series sy ey net file d = ⟨.error .seriesLimit, file, 0, []⟩) ∧
    (ey - sy > 20 → ∃ e, e.isInvalidArgument = true ∧
      bls_request series sy ey net file d = ⟨.error e, file, 0, []⟩) := by
  constructor
  · intro h
    rw [bls_request, if_pos h]
  · intro h
    by_cases hs : series.length > 50
    · exact ⟨.seriesLimit, rfl, by rw [bls_request, if_pos hs]⟩
    · exact ⟨.yearLimit, rfl, by rw [bls_request, if_neg hs, if_pos h]⟩

/-- Witness for C5: 51 identifiers, and a 21-year span. -/
theorem validation_before_ledger_witness :
    bls_request (List.replicate 51 "S") 2000 2005 (fun _ => ⟨200, ""⟩) [] 7 =
      ⟨.error .seriesLimit, [], 0, []⟩ ∧
    ∃ e, e.isInvalidArgument = true ∧
      bls_request ["S"] 2000 2021 (fun _ => ⟨200, ""⟩) [] 7 = ⟨.error e, [], 0, []⟩ :=
  ⟨(validation_before_ledger (List.replicate 51 "S") 2000 2005 (fun _ => ⟨200, ""⟩) [] 7).1
      (by decide),
    (validation_before_ledger ["S"] 2000 2021 (fun _ => ⟨200, ""⟩) [] 7).2 (by decide)⟩

/-- `itertools.batched(series_id_lst, BATCH_SIZE)` with `BATCH_SIZE = 50`,
exactly as consumed by `extract`: successive chunks of 50 elements in input
order, the last chunk possibly shorter.  The fuel argument (instantiated
with the list length in `extract_batches`) only makes the recursion
structural; it never cuts the computation short. -/
def batchedGo {α : Type*} : Nat → List α → List (List α)
  | _, [] => []
  | 0, _ :: _ => []
  | fuel + 1, a :: l => ((a :: l).take 50) :: batchedGo fuel ((a :: l).drop 50)

/-- The batch sequence `extract` feeds to `bls_request`. -/
def extract_batches {α : Type*} (l : List α) : List (List α) := batchedGo l.length l

theorem batchedGo_fuel {α : Type*} :
    ∀ (fuel1 fuel2 : Nat) (l : List α), l.length ≤ fuel1 → l.length ≤ fuel2 →
      batchedGo fuel1 l = batchedGo fuel2 l := by
  intro fuel1
  induction fuel1 with
  | zero =>
    intro fuel2 l h1 _
    match l with
    | [] => cases fuel2 <;> rfl
    | a :: t => simp at h1
  | succ f1 ih =>
    intro fuel2 l h1 h2
    match l with
    | [] => cases fuel2 <;> rfl
    | a :: t =>
      match fuel2 with
      | 0 => simp at h2
      | f2 + 1 =>
        simp only [List.length_cons] at h1 h2
        simp only [batchedGo]
        rw [ih f2 ((a :: t).drop 50)
          (by rw [List.length_drop, List.length_cons]; omega)
          (by rw [List.length_drop, List.length_cons]; omega)]

theorem extract_batches_cons {α : Type*} (a : α) (t : List α) :
    extract_batches (a :: t) = ((a :: t).take 50) :: extract_batches ((a :: t).drop 50) := by
  show batchedGo (t.length + 1) (a :: t) = _
  simp only [batchedGo]
  rw [batchedGo_fuel t.length ((a :: t).drop 50).length ((a :: t).drop 50)
    (by simp) (le_refl _)]
  rfl

theorem extract_batches_nil {α : Type*} : extract_batches ([] : List α) = [] := rfl

theorem extract_batches_eq_nil_iff {α : Type*} (l : List α) :
    extract_batches l = [] ↔ l = [] := by
  match l with
  | [] => simp [extract_batches_nil]
  | a :: t => rw [extract_batches_cons]; simp

/-- C6: for an identifier list of length `N`, `extract` produces
`⌈N/50⌉` batches, in input order, all of size 50 except possibly the last,
whose concatenation is the original list. -/
theorem batching_spec {α : Type*} (l : List α) :
    (extract_batches l).length = (l.length + 49) / 50 ∧
    (extract_batches l).flatten = l ∧
    (∀ b ∈ (extract_batches l).dropLast, b.length = 50) ∧
    (∀ b ∈ extract_batches l, b.length ≤ 50) := by
  generalize hn : l.length = n
  induction n using Nat.strong_induction_on generalizing l with
  | _ n ih =>
    match l with
    | [] =>
      subst hn
      simp [extract_batches_nil]
    | a :: t =>
      have hlen : (a :: t).length = n := hn
      have hpos : 1 ≤ n := by rw [← hlen]; simp
      have hdrop : ((a :: t).drop 50).length = n - 50 := by simp [← hlen]
      have hlt : n - 50 < n := by omega
      obtain ⟨ihc, ihj, ihd, ihb⟩ := ih (n - 50) hlt ((a :: t).drop 50) hdrop
      refine ⟨?_, ?_, ?_, ?_⟩
      · rw [extract_batches_cons]
        simp only [List.length_cons, ihc, hdrop]
        have hlen2 : t.length + 1 = n := by simpa using hlen
        omega
      · rw [extract_batches_cons]
        simp only [List.flatten_cons, ihj, List.take_append_drop]
      · rw [extract_batches_cons]
        intro b hb
        by_cases hrest : extract_batches ((a :: t).drop 50) = []
        · rw [hrest] at hb
          simp at hb
        · rw [List.dropLast_cons_of_ne_nil hrest] at hb
          rcases List.mem_cons.mp hb with hb1 | hb2
          · have hld : (a :: t).drop 50 ≠ [] := by
              intro hcontra
              exact hrest (by rw [hcontra]; rfl)
            have h50 : 50 < (a :: t).length := by
              by_contra hle
              exact hld (List.drop_eq_nil_of_le (by omega))
            rw [hb1]
            simp only [List.length_take, List.length_cons] at h50 ⊢
            omega
          · exact ihd b hb2
      · rw [extract_batches_cons]
        intro b hb
        rcases List.mem_cons.mp hb with hb1 | hb2
        · rw [hb1]
          simp
        · exact ihb b hb2

/-- Witness for C6 on a 60-identifier list: batches of 50 and 10. -/
theorem batching_spec_witness :
    (extract_batches (List.replicate 60 "x")).flatten = List.replicate 60 "x" ∧
    (List.replicate 50 "x").length = 50 :=
  ⟨(batching_spec (List.replicate 60 "x")).2.1,
   (batching_spec (List.replicate 60 "x")).2.2.1 (List.replicate 50 "x") (by decide)⟩

/-- Value of a nonempty all-digit run, accumulator style; `none` on a
non-digit or on the empty run (`int("")`/`float("")` raise). -/
def digitsVal : List Char → Nat → Option Nat
  | [], acc => some acc
  | c :: cs, acc =>
    if c.isDigit then digitsVal cs (acc * 10 + (c.toNat - 48)) else none

def parseDigits (cs : List Char) : Option Nat :=
  if cs = [] then none else digitsVal cs 0

/-- Python `int(s)` on the decimal-literal strings occurring in BLS payloads:
optional sign followed by at least one digit; anything else (in particular
`""` and `"-"`) raises `ValueError`, modelled as `none`. -/
def parsePyInt (s : String) : Option Int :=
  match s.toList with
  | '-' :: rest => (parseDigits rest).map (fun n => -(n : Int))
  | '+' :: rest => (parseDigits rest).map (fun n => (n : Int))
  | cs => (parseDigits cs).map (fun n => (n : Int))

/-- Body of a Python float literal without sign: `digits`, `digits.`,
`digits.digits` or `.digits`; exponents/inf/nan do not occur in BLS data and
are left out.  `none` models `ValueError`. -/
def parseFloatBody (cs : List Char) : Option Rat :=
  match cs.splitOn '.' with
  | [intPart] => (parseDigits intPart).map (fun n => (n : Rat))
  | [intPart, fracPart] =>
    if intPart = [] ∧ fracPart = [] then none
    else if intPart = [] then
      (parseDigits fracPart).map (fun f => (f : Rat) / 10 ^ fracPart.length)
    else if fracPart = [] then
      (parseDigits intPart).map (fun n => (n : Rat))
    else
      match parseDigits intPart, parseDigits fracPart with
      | some n, some f => some ((n : Rat) + (f : Rat) / 10 ^ fracPart.length)
      | _, _ => none
  | _ => none

/-- Python `float(s)` on decimal literals; `float("-")` raises (`none`). -/
def parsePyFloat (s : String) : Option Rat :=
  match s.toList with
  | '-' :: rest => (parseFloatBody rest).map (fun q => -q)
  | '+' :: rest => parseFloatBody rest
  | cs => parseFloatBody cs

/-- One element of `series["data"]` as the JSON gives it: all fields are raw
strings (`footnotes` is the `str(...)` of the footnotes structure that
`transform` compares against `str([{}])`). -/
structure RawDataPoint where
  year : String
  period : String
  periodName : String
  value : String
  footnotes : String
deriving DecidableEq

/-- One element of `response["Results"]["series"]`. -/
structure RawSeries where
  seriesID : String
  data : List RawDataPoint
deriving DecidableEq

/-- One response JSON as `transform` consumes it. -/
structure RawResponse where
  status : String
  message : List String
  series : List RawSeries
deriving DecidableEq

/-- The `data_dict` appended to `final_dct_lst`. -/
structure Record where
  seriesID : String
  year : Int
  period : String
  period_name : String
  value : Rat
  footnotes : Option String
deriving DecidableEq

/-- Error-propagating map: the loop aborts at the first raising element,
like the Python `for` loop it models. -/
def exMap {α β : Type} (f : α → Except Unit β) : List α → Except Unit (List β)
  | [] => .ok []
  | a :: l =>
    match f a with
    | .error e => .error e
    | .ok b =>
      match exMap f l with
      | .error e => .error e
      | .ok bs => .ok (b :: bs)

/-- The `data_dict` construction inside `transform`:
`int(data_point["year"])` and `float(data_point["value"])` propagate
`ValueError` (there is no try/except around them), and `footnotes` becomes
`None` exactly when the raw string equals `str([{}])`, i.e. `"[\x7b\x7d]"`. -/
def transformPoint (sid : String) (p : RawDataPoint) : Except Unit Record :=
  match parsePyInt p.year with
  | none => .error ()
  | some y =>
    match parsePyFloat p.value with
    | none => .error ()
    | some v =>
      .ok ⟨sid, y, p.period, p.periodName, v,
        if p.footnotes ≠ "[\x7b\x7d]" then some p.footnotes else none⟩

def transformSeries (s : RawSeries) : Except Unit (List Record) :=
  exMap (transformPoint s.seriesID) s.data

def transformResponse (r : RawResponse) : Except Unit (List Record) :=
  match exMap transformSeries r.series with
  | .error e => .error e
  | .ok lists => .ok lists.flatten

/-- `BlsApiCall.transform` restricted to its record building (the
`_log_message` calls are log-only). -/
def transform (rs : List RawResponse) : Except Unit (List Record) :=
  match exMap transformResponse rs with
  | .error e => .error e
  | .ok lists => .ok lists.flatten

/-- `BlsApiCall._values_to_floats`:
`df['value'].replace('-', None).astype('float')` — the sentinel `"-"`
becomes null, other strings must parse as floats. This helper sits in the
deprecated cleaning block and is not called by `transform`. -/
def values_to_floats (vals : List String) : Except Unit (List (Option Rat)) :=
  exMap
    (fun s =>
      if s = "-" then .ok none
      else
        match parsePyFloat s with
        | some v => .ok (some v)
        | none => .error ()) vals

/-- C7 counterexample: on a data point whose value field is the sentinel
`"-"`, `transform` raises `ValueError` (from `float("-")`) instead of
producing a record with a null value — the claim that normalization returns
without raising on such points is false for `transform` as written. -/
theorem transform_raises_on_dash :
    transform [⟨"REQUEST_SUCCEEDED", [],
      [⟨"S1", [⟨"2000", "M01", "January", "-", "[\x7b\x7d]"⟩]⟩]⟩] = .error () := rfl

/-- C7 amended: `transform` propagates parse failures — a point whose value
does not parse as a float (in particular the sentinel `"-"`) raises rather
than yielding a degenerate record; for points that do parse, a footnotes
string equal to `"[\x7b\x7d]"` maps to null and any other footnotes string is
kept; the value-sentinel-to-null mapping lives only in the unused helper
`_values_to_floats`. -/
theorem transform_amended (sid : String) (p : RawDataPoint) :
    (∀ r, transformPoint sid p = .ok r →
      r.footnotes = if p.footnotes = "[\x7b\x7d]" then none else some p.footnotes) ∧
    (parsePyFloat p.value = none → transformPoint sid p = .error ()) ∧
    parsePyFloat "-" = none ∧
    values_to_floats ["-"] = .ok [none] := by
  refine ⟨?_, ?_, rfl, rfl⟩
  · intro r h
    rw [transformPoint] at h
    match hy : parsePyInt p.year with
    | none => rw [hy] at h; exact absurd h (by simp)
    | some y =>
      rw [hy] at h
      match hv : parsePyFloat p.value with
      | none => rw [hv] at h; exact absurd h (by simp)
      | some v =>
        rw [hv] at h
        simp only [Except.ok.injEq] at h
        rw [← h]
        by_cases hf : p.footnotes = "[\x7b\x7d]" <;> simp [hf]
  · intro hv
    rw [transformPoint]
    match hy : parsePyInt p.year with
    | none => rfl
    | some y => rw [hv]

/-- Witness for C7 amended, on a parsing point and on the sentinel point. -/
theorem transform_amended_witness :
    ((Record.mk "S" 2000 "M01" "January" 4 (some "notes")).footnotes
      = if "notes" = "[\x7b\x7d]" then none else some "notes") ∧
    transformPoint "S" ⟨"2000", "M01", "January", "-", "x"⟩ = .error () :=
  ⟨(transform_amended "S" ⟨"2000", "M01", "January", "4", "notes"⟩).1
      ⟨"S", 2000, "M01", "January", 4, some "notes"⟩ rfl,
   (transform_amended "S" ⟨"2000", "M01", "January", "-", "x"⟩).2.1 rfl⟩

/-- The `adjusted` constant of `_convert_adjusted`. -/
def adjustedSuffix : List Char := ", seasonally adjusted".toList

/-- The `not_adjusted` constant of `_convert_adjusted`. -/
def notAdjustedSuffix : List Char := ", not seasonally adjusted".toList

/-- Python `haystack.find(needle)` over char lists: index of the first
occurrence, `none` for `-1`. -/
def findSub : List Char → List Char → Option Nat
  | [], pat => if pat.isPrefixOf ([] : List Char) then some 0 else none
  | c :: rest, pat =>
    if pat.isPrefixOf (c :: rest) then some 0
    else (findSub rest pat).map (· + 1)

/-- `adjusted_column` inside `_convert_adjusted`: lowercases the name and
tests `endswith` for the two suffixes, in that order.  (`str.lower` is
per-character `Char.toLower`; both suffixes are ASCII.) -/
def adjusted_column (text : String) : Option Bool :=
  if adjustedSuffix.isSuffixOf (text.toList.map Char.toLower) then some true
  else if notAdjustedSuffix.isSuffixOf (text.toList.map Char.toLower) then some false
  else none

/-- `remove_terms` inside `_convert_adjusted`: `text_lower.find(adjusted)`
then `text_lower.find(not_adjusted)`, truncating the *original* text at the
first match — note `find`, not `endswith`: a mid-string occurrence also
truncates. -/
def remove_terms (text : String) : String :=
  match findSub (text.toList.map Char.toLower) adjustedSuffix with
  | some i => String.mk (text.toList.take i)
  | none =>
    match findSub (text.toList.map Char.toLower) notAdjustedSuffix with
    | some i => String.mk (text.toList.take i)
    | none => text

/-- `_convert_adjusted` on the `series` column: the new `is_adjusted` column
is computed from the original names, then the `series` column is rewritten
with `remove_terms` of the original names. -/
def convert_adjusted (names : List String) : List (Option Bool × String) :=
  names.map (fun s => (adjusted_column s, remove_terms s))

/-- A name ending in `", not seasonally adjusted"` cannot also end in
`", seasonally adjusted"`: neither constant is a suffix of the other. -/
theorem suffix_excl {t : List Char} (h : notAdjustedSuffix.isSuffixOf t = true) :
    adjustedSuffix.isSuffixOf t = false := by
  by_contra hc
  simp only [Bool.not_eq_false] at hc
  rcases List.suffix_or_suffix_of_suffix ((List.isSuffixOf_iff_suffix).mp hc)
      ((List.isSuffixOf_iff_suffix).mp h) with h3 | h3
  · exact absurd ((List.isSuffixOf_iff_suffix).mpr h3) (by decide)
  · exact absurd ((List.isSuffixOf_iff_suffix).mpr h3) (by decide)

/-- `findSub` returns the least index at which the pattern occurs. -/
theorem findSub_some_spec (pat : List Char) :
    ∀ (l : List Char) (i : Nat), findSub l pat = some i →
      pat.isPrefixOf (l.drop i) = true ∧
      ∀ j, j < i → pat.isPrefixOf (l.drop j) = false := by
  intro l
  induction l with
  | nil =>
    intro i h
    rw [findSub] at h
    split at h
    · rename_i hp
      injection h with h0
      subst h0
      exact ⟨hp, fun j hj => absurd hj (by omega)⟩
    · exact absurd h (by simp)
  | cons c rest ih =>
    intro i h
    rw [findSub] at h
    split at h
    · rename_i hp
      injection h with h0
      subst h0
      exact ⟨hp, fun j hj => absurd hj (by omega)⟩
    · rename_i hp
      match hr : findSub rest pat with
      | none => rw [hr] at h; exact absurd h (by simp)
      | some i0 =>
        rw [hr] at h
        have h2 : some (i0 + 1) = some i := h
        injection h2 with h3
        subst h3
        obtain ⟨hpre, hmin⟩ := ih i0 hr
        refine ⟨hpre, ?_⟩
        intro j hj
        match j with
        | 0 =>
          show pat.isPrefixOf (c :: rest) = false
          cases hb : pat.isPrefixOf (c :: rest)
          · rfl
          · exact absurd hb hp
        | j0 + 1 => exact hmin j0 (by omega)

/-- C8 counterexample: for the name `"A, seasonally adjusted B"` the flag is
null (the name does not *end* in either suffix), yet `_convert_adjusted`
still truncates the name to `"A"` because `find` matches the mid-string
occurrence — contradicting the claim that only a trailing suffix, and only
in the true/false cases, is stripped. -/
theorem convert_adjusted_counterexample :
    convert_adjusted ["A, seasonally adjusted B"] = [(none, "A")] := by decide

/-- An occurrence index returned by `findSub` for a nonempty pattern lies
strictly inside the string, so truncating there always shortens it. -/
theorem findSub_lt_length (s : String) (pat : List Char) (i : Nat)
    (hpat : pat ≠ []) (h : findSub (s.toList.map Char.toLower) pat = some i) :
    i < s.toList.length := by
  obtain ⟨hpre, _⟩ := findSub_some_spec pat _ i h
  have hp : pat <+: ((s.toList.map Char.toLower).drop i) :=
    (List.isPrefixOf_iff_prefix).mp hpre
  have hlen := hp.length_le
  have hd : ((s.toList.map Char.toLower).drop i).length = s.toList.length - i := by
    simp
  have hpos : 1 ≤ pat.length := by
    cases pat
    · exact absurd rfl hpat
    · simp
  omega

/-- C8 amended: `is_adjusted` is true/false/null exactly by the
case-insensitive `endswith` tests (mutually exclusive), as the claim says;
but the name is truncated at the *first case-insensitive occurrence* of
`", seasonally adjusted"` — else at the first occurrence of
`", not seasonally adjusted"` — anywhere in the name, including when
`is_adjusted` is null, and is unchanged exactly when neither string occurs
at all.  (The in-place-mutation clause of the claim concerns pandas object
identity and is outside this embedding; `_convert_adjusted` does assign
onto the DataFrame it receives.) -/
theorem convert_adjusted_amended (s : String) :
    (adjusted_column s = some true ↔
      adjustedSuffix.isSuffixOf (s.toList.map Char.toLower) = true) ∧
    (adjusted_column s = some false ↔
      notAdjustedSuffix.isSuffixOf (s.toList.map Char.toLower) = true) ∧
    (adjusted_column s = none ↔
      (adjustedSuffix.isSuffixOf (s.toList.map Char.toLower) = false ∧
       notAdjustedSuffix.isSuffixOf (s.toList.map Char.toLower) = false)) ∧
    (∀ i, findSub (s.toList.map Char.toLower) adjustedSuffix = some i →
      remove_terms s = String.mk (s.toList.take i) ∧
      adjustedSuffix.isPrefixOf ((s.toList.map Char.toLower).drop i) = true ∧
      ∀ j, j < i →
        adjustedSuffix.isPrefixOf ((s.toList.map Char.toLower).drop j) = false) ∧
    (∀ i, findSub (s.toList.map Char.toLower) adjustedSuffix = none →
      findSub (s.toList.map Char.toLower) notAdjustedSuffix = some i →
      remove_terms s = String.mk (s.toList.take i) ∧
      notAdjustedSuffix.isPrefixOf ((s.toList.map Char.toLower).drop i) = true ∧
      ∀ j, j < i →
        notAdjustedSuffix.isPrefixOf ((s.toList.map Char.toLower).drop j) = false) ∧
    (remove_terms s = s ↔
      (findSub (s.toList.map Char.toLower) adjustedSuffix = none ∧
       findSub (s.toList.map Char.toLower) notAdjustedSuffix = none)) := by
  refine ⟨?_, ?_, ?_, ?_, ?_, ?_⟩
  · rw [adjusted_column]
    cases hB : notAdjustedSuffix.isSuffixOf (s.toList.map Char.toLower) with
    | false =>
      cases hA : adjustedSuffix.isSuffixOf (s.toList.map Char.toLower) <;> simp
    | true =>
      have hA := suffix_excl hB
      rw [hA]
      simp
  · rw [adjusted_column]
    cases hB : notAdjustedSuffix.isSuffixOf (s.toList.map Char.toLower) with
    | false =>
      cases hA : adjustedSuffix.isSuffixOf (s.toList.map Char.toLower) <;> simp
    | true =>
      have hA := suffix_excl hB
      rw [hA]
      simp
  · rw [adjusted_column]
    cases hB : notAdjustedSuffix.isSuffixOf (s.toList.map Char.toLower) with
    | false =>
      cases hA : adjustedSuffix.isSuffixOf (s.toList.map Char.toLower) <;> simp
    | true =>
      have hA := suffix_excl hB
      rw [hA]
      simp
  · intro i hf
    obtain ⟨hpre, hmin⟩ := findSub_some_spec adjustedSuffix _ i hf
    refine ⟨?_, hpre, hmin⟩
    rw [remove_terms, hf]
  · intro i hfa hfn
    obtain ⟨hpre, hmin⟩ := findSub_some_spec notAdjustedSuffix _ i hfn
    refine ⟨?_, hpre, hmin⟩
    rw [remove_terms, hfa, hfn]
  · constructor
    · intro heq
      constructor
      · cases hfa : findSub (s.toList.map Char.toLower) adjustedSuffix with
        | none => rfl
        | some i =>
          exfalso
          have hlt : i < s.toList.length :=
            findSub_lt_length s adjustedSuffix i (by decide) hfa
          have hr : remove_terms s = String.mk (s.toList.take i) := by
            rw [remove_terms, hfa]
          have h1 : String.mk (s.toList.take i) = s := hr.symm.trans heq
          have h2 : s.toList.take i = s.toList := congrArg String.data h1
          have h3 := congrArg List.length h2
          simp only [List.length_take] at h3
          omega
      · cases hfn : findSub (s.toList.map Char.toLower) notAdjustedSuffix with
        | none => rfl
        | some i =>
          exfalso
          have hlt : i < s.toList.length :=
            findSub_lt_length s notAdjustedSuffix i (by decide) hfn
          cases hfa : findSub (s.toList.map Char.toLower) adjustedSuffix with
          | some i2 =>
            have hlt2 : i2 < s.toList.length :=
              findSub_lt_length s adjustedSuffix i2 (by decide) hfa
            have hr : remove_terms s = String.mk (s.toList.take i2) := by
              rw [remove_terms, hfa]
            have h1 : String.mk (s.toList.take i2) = s := hr.symm.trans heq
            have h2 : s.toList.take i2 = s.toList := congrArg String.data h1
            have h3 := congrArg List.length h2
            simp only [List.length_take] at h3
            omega
          | none =>
            have hr : remove_terms s = String.mk (s.toList.take i) := by
              rw [remove_terms, hfa, hfn]
            have h1 : String.mk (s.toList.take i) = s := hr.symm.trans heq
            have h2 : s.toList.take i = s.toList := congrArg String.data h1
            have h3 := congrArg List.length h2
            simp only [List.length_take] at h3
            omega
    · rintro ⟨h1, h2⟩
      rw [remove_terms, h1, h2]

/-- Witness for C8 amended at the spec's two suffixed examples: in
`"Unemployment Rate, seasonally adjusted"` the adjusted string occurs first
at index 17, and in `"Unemployment Rate, not seasonally adjusted"` the
adjusted string does not occur while the not-adjusted string occurs first at
index 17 — both names are stripped to their first 17 characters,
`"Unemployment Rate"`. -/
theorem convert_adjusted_amended_witness :
    (remove_terms "Unemployment Rate, seasonally adjusted" =
        String.mk ("Unemployment Rate, seasonally adjusted".toList.take 17) ∧
      adjustedSuffix.isPrefixOf
        (("Unemployment Rate, seasonally adjusted".toList.map Char.toLower).drop 17) = true ∧
      ∀ j, j < 17 →
        adjustedSuffix.isPrefixOf
          (("Unemployment Rate, seasonally adjusted".toList.map Char.toLower).drop j)
            = false) ∧
    (remove_terms "Unemployment Rate, not seasonally adjusted" =
        String.mk ("Unemployment Rate, not seasonally adjusted".toList.take 17) ∧
      notAdjustedSuffix.isPrefixOf
        (("Unemployment Rate, not seasonally adjusted".toList.map Char.toLower).drop 17)
          = true ∧
      ∀ j, j < 17 →
        notAdjustedSuffix.isPrefixOf
          (("Unemployment Rate, not seasonally adjusted".toList.map Char.toLower).drop j)
            = false) :=
  ⟨(convert_adjusted_amended "Unemployment Rate, seasonally adjusted").2.2.2.1 17 (by decide),
   (convert_adjusted_amended "Unemployment Rate, not seasonally adjusted").2.2.2.2.1 17
      (by decide) (by decide)⟩

/-- A row of the merged DataFrame that `_drop_nulls_and_duplicates`
receives: the record fields, with `value` and `footnotes` nullable. -/
structure CleanRecord where
  seriesID : String
  year : Int
  period : String
  period_name : String
  value : Option Rat
  footnotes : Option String
deriving DecidableEq

/-- The `subset=['seriesID', 'year', 'period']` key of `drop_duplicates`. -/
def recKey (r : CleanRecord) : String × Int × String := (r.seriesID, r.year, r.period)

/-- `df.drop_duplicates(subset=..., keep='first')`: keep a row iff its key
was not seen on an earlier row. -/
def dropDupGo (seen : List (String × Int × String)) : List CleanRecord → List CleanRecord
  | [] => []
  | r :: rest =>
    if recKey r ∈ seen then dropDupGo seen rest
    else r :: dropDupGo (recKey r :: seen) rest

def drop_duplicates (rows : List CleanRecord) : List CleanRecord := dropDupGo [] rows

/-- Does `df.dropna(axis=0)` drop this row? Only `value` and `footnotes`
can be null. -/
def hasNull (r : CleanRecord) : Bool := r.value.isNone || r.footnotes.isNone

/-- `BlsApiCall._drop_nulls_and_duplicates`: `drop_duplicates` on the
three-column key, then `dropna(axis=0)`. -/
def drop_nulls_and_duplicates (rows : List CleanRecord) : List CleanRecord :=
  (drop_duplicates rows).filter (fun r => !hasNull r)

theorem dropDupGo_sublist (seen : List (String × Int × String)) (l : List CleanRecord) :
    (dropDupGo seen l).Sublist l := by
  induction l generalizing seen with
  | nil => simp [dropDupGo]
  | cons r rest ih =>
    rw [dropDupGo]
    split
    · exact (ih seen).trans (List.sublist_cons_self r rest)
    · exact List.Sublist.cons₂ r (ih _)

theorem dropDupGo_not_seen (seen : List (String × Int × String)) (l : List CleanRecord) :
    ∀ r ∈ dropDupGo seen l, recKey r ∉ seen := by
  induction l generalizing seen with
  | nil => intro r hr; simp [dropDupGo] at hr
  | cons x rest ih =>
    intro r hr
    rw [dropDupGo] at hr
    split at hr
    · exact ih seen r hr
    · rename_i hx
      rcases List.mem_cons.mp hr with rfl | hr2
      · exact hx
      · intro hcontra
        exact (ih _ r hr2) (List.mem_cons_of_mem _ hcontra)

theorem dropDupGo_nodup_keys (seen : List (String × Int × String)) (l : List CleanRecord) :
    ((dropDupGo seen l).map recKey).Nodup := by
  induction l generalizing seen with
  | nil => simp [dropDupGo]
  | cons x rest ih =>
    rw [dropDupGo]
    split
    · exact ih seen
    · simp only [List.map_cons, List.nodup_cons]
      refine ⟨?_, ih _⟩
      intro hmem
      rcases List.mem_map.mp hmem with ⟨y, hy, hkey⟩
      exact (dropDupGo_not_seen _ _ y hy) (by rw [hkey]; exact List.mem_cons_self _ _)

theorem dropDupGo_covers (seen : List (String × Int × String)) (l : List CleanRecord) :
    ∀ r ∈ l, recKey r ∈ seen ∨ ∃ x ∈ dropDupGo seen l, recKey x = recKey r := by
  induction l generalizing seen with
  | nil => intro r hr; simp at hr
  | cons y rest ih =>
    intro r hr
    rw [dropDupGo]
    rcases List.mem_cons.mp hr with heq | hr2
    · split
      · rename_i hy
        left
        rw [heq]
        exact hy
      · right
        exact ⟨y, List.mem_cons_self _ _, by rw [heq]⟩
    · split
      · rename_i hy
        exact ih seen r hr2
      · rcases ih (recKey y :: seen) r hr2 with hseen | ⟨x, hx, hkx⟩
        · rcases List.mem_cons.mp hseen with heq | hseen2
          · right
            exact ⟨y, List.mem_cons_self _ _, heq.symm⟩
          · left
            exact hseen2
        · right
          exact ⟨x, List.mem_cons_of_mem _ hx, hkx⟩

theorem dropDupGo_keeps_first (x : CleanRecord) (l2 : List CleanRecord) :
    ∀ (l1 : List CleanRecord) (seen : List (String × Int × String)),
      recKey x ∉ seen → (∀ y ∈ l1, recKey y ≠ recKey x) →
      x ∈ dropDupGo seen (l1 ++ x :: l2) := by
  intro l1
  induction l1 with
  | nil =>
    intro seen hx _
    rw [List.nil_append, dropDupGo, if_neg hx]
    exact List.mem_cons_self _ _
  | cons y t ih =>
    intro seen hx hfirst
    rw [List.cons_append, dropDupGo]
    split
    · exact ih seen hx (fun z hz => hfirst z (List.mem_cons_of_mem _ hz))
    · refine List.mem_cons_of_mem _ (ih _ ?_ (fun z hz => hfirst z (List.mem_cons_of_mem _ hz)))
      intro hc
      rcases List.mem_cons.mp hc with h1 | h2
      · exact hfirst y (List.mem_cons_self _ _) h1.symm
      · exact hx h2

/-- C9 counterexample: a single record whose `value` is null is not a
duplicate of anything, yet `_drop_nulls_and_duplicates` drops it
(`dropna(axis=0)` removes every row containing a null) — contradicting both
"removes exactly the duplicates and no others" and "retains records whose
value is missing". -/
theorem dedup_counterexample :
    drop_nulls_and_duplicates [⟨"S", 2000, "M01", "January", none, some "f"⟩] = [] := by
  decide

/-- C9 amended: the duplicate pass removes the records whose
`(seriesID, year, period)` key (not full structural identity) occurred on an
earlier record, keeping the first occurrence and preserving order (the
result is a sublist with no duplicate keys, covering every input key); after
it, `dropna` removes every surviving row that has a null `value` or null
`footnotes`. -/
theorem dedup_amended (rows : List CleanRecord) :
    drop_nulls_and_duplicates rows = (drop_duplicates rows).filter (fun r => !hasNull r) ∧
    (drop_duplicates rows).Sublist rows ∧
    ((drop_duplicates rows).map recKey).Nodup ∧
    (∀ r ∈ rows, ∃ x ∈ drop_duplicates rows, recKey x = recKey r) ∧
    (∀ l1 x l2, rows = l1 ++ x :: l2 → (∀ y ∈ l1, recKey y ≠ recKey x) →
      x ∈ drop_duplicates rows) := by
  refine ⟨rfl, dropDupGo_sublist [] rows, dropDupGo_nodup_keys [] rows, ?_, ?_⟩
  · intro r hr
    rcases dropDupGo_covers [] rows r hr with hseen | hex
    · simp at hseen
    · exact hex
  · intro l1 x l2 hsplit hfirst
    rw [hsplit]
    exact dropDupGo_keeps_first x l2 l1 [] (by simp) hfirst

/-- Witness for C9 amended: two records sharing a key — the first is kept. -/
theorem dedup_amended_witness :
    (⟨"S", 2000, "M01", "January", some 5, some "f"⟩ : CleanRecord) ∈
      drop_duplicates [⟨"S", 2000, "M01", "January", some 5, some "f"⟩,
        ⟨"S", 2000, "M01", "January", some 6, some "g"⟩] ∧
    ∃ x ∈ drop_duplicates [⟨"S", 2000, "M01", "January", some 5, some "f"⟩,
        ⟨"S", 2000, "M01", "January", some 6, some "g"⟩],
      recKey x = recKey ⟨"S", 2000, "M01", "January", some 6, some "g"⟩ :=
  ⟨(dedup_amended [⟨"S", 2000, "M01", "January", some 5, some "f"⟩,
        ⟨"S", 2000, "M01", "January", some 6, some "g"⟩]).2.2.2.2
      [] ⟨"S", 2000, "M01", "January", some 5, some "f"⟩
      [⟨"S", 2000, "M01", "January", some 6, some "g"⟩] rfl
      (by intro y hy; simp at hy),
   (dedup_amended [⟨"S", 2000, "M01", "January", some 5, some "f"⟩,
        ⟨"S", 2000, "M01", "January", some 6, some "g"⟩]).2.2.2.1
      ⟨"S", 2000, "M01", "January", some 6, some "g"⟩ (by simp)⟩

/-- A value passed for `national_series`/`state_series`: either a pandas
DataFrame (with its number of rows, for the `len(...)` default) or some
other object (failing the `isinstance` check). -/
inductive SeriesArg where
  | df (nrows : Nat)
  | notDf
deriving DecidableEq

def SeriesArg.isDf : SeriesArg → Bool
  | .df _ => true
  | .notDf => false

def SeriesArg.nrows : SeriesArg → Nat
  | .df n => n
  | .notDf => 0

/-- The exceptions `BlsApiCall.__init__` can raise, in source order. -/
inductive InitErr where
  /-- `Exception('Argument must only be one series list')` (neither or both) -/
  | onlySeries
  /-- `TypeError('BlsApiCall inputs must be Pandas DataFrame')` -/
  | typeErr
  /-- `Exception('Start year must be before end year.')` -/
  | startAfterEnd
  /-- `Exception('Please enter a valid year')` -/
  | nonPositiveYear
  /-- `Exception("Please enter a valid year.")` -/
  | futureEnd
deriving DecidableEq

/-- The state a successfully constructed `BlsApiCall` carries. -/
structure InitState where
  start_year : Int
  end_year : Int
  number_of_series : Nat
  national : Bool
  state : Bool
deriving DecidableEq

/-- `BlsApiCall.__init__`: the `elif` validation chain in source order,
then the two `if` blocks setting `number_of_series` (explicit argument, or
`len(...)` of the supplied frame) and the `national`/`state` flags.
`currentYear` stands for `datetime.datetime.now()`'s year; `__init__`
performs no file or network I/O, so there is no ledger state here.  The
`none, none` fallthrough of the final match is unreachable (the first check
raises). -/
def blsInit (start_year end_year : Int) (national_series state_series : Option SeriesArg)
    (number_of_series : Option Nat) (currentYear : Int) : Except InitErr InitState :=
  if state_series = none ∧ national_series = none then .error .onlySeries
  else if state_series ≠ none ∧ national_series ≠ none then .error .onlySeries
  else if (match state_series with | some a => ! a.isDf | none => false) = true then
    .error .typeErr
  else if (match national_series with | some a => ! a.isDf | none => false) = true then
    .error .typeErr
  else if start_year > end_year then .error .startAfterEnd
  else if start_year ≤ 0 ∨ end_year ≤ 0 then .error .nonPositiveYear
  else if end_year > currentYear then .error .futureEnd
  else
    match national_series, state_series with
    | some a, _ => .ok ⟨start_year, end_year, number_of_series.getD a.nrows, true, false⟩
    | none, some a => .ok ⟨start_year, end_year, number_of_series.getD a.nrows, false, true⟩
    | none, none => .error .onlySeries

/-- C10: construction succeeds exactly when exactly one series argument is
supplied, it is a DataFrame, and `0 < start_year ≤ end_year ≤ currentYear`;
supplying exactly one non-DataFrame argument raises the `TypeError`.
(`__init__` touches no quota file and no network in the source, so every
rejection happens before any such state.) -/
theorem init_validation (sy ey : Int) (nat st : Option SeriesArg) (num : Option Nat)
    (cur : Int) :
    ((∃ s, blsInit sy ey nat st num cur = .ok s) ↔
      ((((∃ n, nat = some (SeriesArg.df n)) ∧ st = none) ∨
        ((∃ n, st = some (SeriesArg.df n)) ∧ nat = none)) ∧
       0 < sy ∧ sy ≤ ey ∧ ey ≤ cur)) ∧
    ((st = none ∧ nat = some .notDf) ∨ (nat = none ∧ st = some .notDf) →
      blsInit sy ey nat st num cur = .error .typeErr) := by
  constructor
  · cases nat with
    | none =>
      cases st with
      | none => simp [blsInit]
      | some b =>
        cases b with
        | df m =>
          simp only [blsInit]
          simp [SeriesArg.isDf]
          split_ifs <;> simp <;> omega
        | notDf => simp [blsInit, SeriesArg.isDf]
    | some a =>
      cases a with
      | df n =>
        cases st with
        | none =>
          simp only [blsInit]
          simp [SeriesArg.isDf]
          split_ifs <;> simp <;> omega
        | some b => simp [blsInit]
      | notDf =>
        cases st with
        | none => simp [blsInit, SeriesArg.isDf]
        | some b => simp [blsInit]
  · rintro (⟨hst, hnat⟩ | ⟨hnat, hst⟩) <;> subst hst <;> subst hnat <;>
      simp [blsInit, SeriesArg.isDf]

/-- Witness for C10: a valid construction and a `TypeError` rejection. -/
theorem init_validation_witness :
    (∃ s, blsInit 2000 2005 (some (.df 3)) none none 2026 = .ok s) ∧
    blsInit 2000 2005 (some .notDf) none none 2026 = .error .typeErr :=
  ⟨(init_validation 2000 2005 (some (.df 3)) none none 2026).1.mpr
      ⟨Or.inl ⟨⟨3, rfl⟩, rfl⟩, by norm_num, by norm_num, by norm_num⟩,
   (init_validation 2000 2005 (some .notDf) none none 2026).2 (Or.inl ⟨rfl, rfl⟩)⟩

end Bls
